import Mathlib

/-!
Verification of the waveform Fourier-series visualizer core
(`fourier_visualize.py`) and the Zeeman shift calculator
(`zeeman_effect.py`) against their written specification.

The numpy code is embedded pointwise over the sample grid: a numpy array
is a `List ℝ`, vectorized arithmetic becomes a `List.map`, and the
accumulation loops of the wave evaluators become sums over the list of
term indices that Python's `range` would produce.  All arithmetic is
exact real arithmetic.
-/

noncomputable section

/-- Python `range(1, n_terms + 1)`: the term indices `1, 2, ..., n_terms`
(empty when `n_terms ≤ 0`). -/
def rangeList (n_terms : ℤ) : List ℕ :=
  (List.range n_terms.toNat).map (fun k => k + 1)

/-- Python `range(1, n_terms + 1, 2)`: the odd term indices among
`1 .. n_terms`, in order. -/
def oddRangeList (n_terms : ℤ) : List ℕ :=
  (rangeList n_terms).filter (fun n => n % 2 == 1)

/-- Source `square_wave` (fourier_visualize.py lines 40-45), value at one grid
point `x`: sum over odd `n` of `(4/(n·π))·sin(n·f·x)`. -/
def square_wave (frequency x : ℝ) (n_terms : ℤ) : ℝ :=
  ((oddRangeList n_terms).map
    (fun (n : ℕ) => (4 / ((n : ℝ) * Real.pi)) * Real.sin ((n : ℝ) * frequency * x))).sum

/-- Source `sawtooth_wave` (lines 47-52), value at one grid point. -/
def sawtooth_wave (frequency x : ℝ) (n_terms : ℤ) : ℝ :=
  ((rangeList n_terms).map
    (fun (n : ℕ) => (2 / ((n : ℝ) * Real.pi)) * (-1 : ℝ) ^ (n + 1) *
      Real.sin ((n : ℝ) * frequency * x))).sum

/-- Source `triangle_wave` (lines 54-59), value at one grid point.  The Python
exponent `(n-1)/2` is whole for every odd `n`, so natural-number division
renders it exactly. -/
def triangle_wave (frequency x : ℝ) (n_terms : ℤ) : ℝ :=
  ((oddRangeList n_terms).map
    (fun (n : ℕ) => (8 / ((n : ℝ) ^ 2 * Real.pi ^ 2)) * (-1 : ℝ) ^ ((n - 1) / 2) *
      Real.sin ((n : ℝ) * frequency * x))).sum

/-- Source `pulse_wave` (lines 61-66), value at one grid point. -/
def pulse_wave (frequency x : ℝ) (n_terms : ℤ) : ℝ :=
  ((rangeList n_terms).map
    (fun (n : ℕ) => (2 / ((n : ℝ) * Real.pi)) * Real.sin ((n : ℝ) * Real.pi / 2) *
      Real.cos ((n : ℝ) * frequency * x))).sum

/-- The mutable state of `FourierSeriesVisualizer` that the core reads and
writes: the four parameters, the sample grid `self.x`, the plotted samples
`self.line`'s y-data, and the axes title. -/
structure Visualizer where
  num_terms : ℤ
  frequency : ℝ
  amplitude : ℝ
  current_function : String
  x : List ℝ
  line_ydata : List ℝ
  title : String

/-- Source `calculate_fourier_series` (lines 68-79): dispatch on the current
function name, scale by the amplitude, and fall back to
`np.zeros_like(self.x)` on an unrecognized name. -/
def calculate_fourier_series (s : Visualizer) : List ℝ :=
  if s.current_function = "square" then
    s.x.map (fun xi => s.amplitude * square_wave s.frequency xi s.num_terms)
  else if s.current_function = "sawtooth" then
    s.x.map (fun xi => s.amplitude * sawtooth_wave s.frequency xi s.num_terms)
  else if s.current_function = "triangle" then
    s.x.map (fun xi => s.amplitude * triangle_wave s.frequency xi s.num_terms)
  else if s.current_function = "pulse" then
    s.x.map (fun xi => s.amplitude * pulse_wave s.frequency xi s.num_terms)
  else
    List.replicate s.x.length 0

/-- Python `str.capitalize()`: first character upper-cased, the rest
lower-cased. -/
def pyCapitalize (s : String) : String :=
  match s.data with
  | [] => ""
  | c :: rest => String.mk (c.toUpper :: rest.map Char.toLower)

/-- Source `update_plot` (lines 137-142): recompute the samples from the current
parameters, store them in the plotted line, and set the title from the
f-string `Fourier Series: {kind.capitalize()} Wave ({num_terms} terms)`. -/
def update_plot (s : Visualizer) : Visualizer :=
  { s with
    line_ydata := calculate_fourier_series s
    title := "Fourier Series: " ++ pyCapitalize s.current_function ++
      " Wave (" ++ toString s.num_terms ++ " terms)" }

/-- Source `update_terms` (lines 117-120): the slider delivers a whole value
(valstep=1), which `int(val)` stores unchanged. -/
def update_terms (s : Visualizer) (val : ℤ) : Visualizer :=
  update_plot { s with num_terms := val }

/-- Source `update_frequency` (lines 122-125). -/
def update_frequency (s : Visualizer) (val : ℝ) : Visualizer :=
  update_plot { s with frequency := val }

/-- Source `update_amplitude` (lines 127-130). -/
def update_amplitude (s : Visualizer) (val : ℝ) : Visualizer :=
  update_plot { s with amplitude := val }

/-- Source `update_function` (lines 132-135). -/
def update_function (s : Visualizer) (label : String) : Visualizer :=
  update_plot { s with current_function := label }

/-- Numpy `linspace a b num`: `num` evenly spaced points from `a` to `b`
inclusive, step `(b - a)/(num - 1)`. -/
def linspace (a b : ℝ) (num : ℕ) : List ℝ :=
  (List.range num).map
    (fun (i : ℕ) => a + (b - a) * (i : ℝ) / ((num - 1 : ℕ) : ℝ))

/-- Source `FourierSeriesVisualizer.__init__` (lines 6-38): default parameters,
grid `np.linspace(-2π, 2π, 1000)`, initial plot of the computed series,
title `Fourier Series Visualizer`, then a final `update_plot()`. -/
def initVisualizer : Visualizer :=
  let s0 : Visualizer :=
    { num_terms := 5
      frequency := 1
      amplitude := 1
      current_function := "square"
      x := linspace (-(2 * Real.pi)) (2 * Real.pi) 1000
      line_ydata := []
      title := "" }
  let s1 := { s0 with
    line_ydata := calculate_fourier_series s0
    title := "Fourier Series Visualizer" }
  update_plot s1

/-- Constant `BOHR_MAGNETON` (zeeman_effect.py line 4), joules per tesla. -/
def BOHR_MAGNETON : ℝ := 9.274e-24

/-- Source `calculate_zeeman_shift` (zeeman_effect.py lines 6-16). -/
def calculate_zeeman_shift (g_factor m_j magnetic_field : ℝ) : ℝ :=
  BOHR_MAGNETON * g_factor * m_j * magnetic_field

/-- The spec's `WaveformKind` enumeration. -/
inductive SpecKind : Type
  | square
  | sawtooth
  | triangle
  | pulse
deriving DecidableEq

/-- The function-name string the source uses for each spec kind. -/
def kindName : SpecKind → String
  | .square => "square"
  | .sawtooth => "sawtooth"
  | .triangle => "triangle"
  | .pulse => "pulse"

/-- The capitalized kind name the spec's title format uses. -/
def specKindTitleName : SpecKind → String
  | .square => "Square"
  | .sawtooth => "Sawtooth"
  | .triangle => "Triangle"
  | .pulse => "Pulse"

/-- The per-kind partial sum exactly as the spec's table states it
(spec.md section 4.1): for Square, the sum over odd `n` from 1 to `N` of
`(4/(nπ))·sin(n·f·x)`; for Sawtooth, over all `n` from 1 to `N` of
`(2/(nπ))·(−1)^(n+1)·sin(n·f·x)`; for Triangle, over odd `n` of
`(8/(n²π²))·(−1)^((n−1)/2)·sin(n·f·x)`; for Pulse, over all `n` of
`(2/(nπ))·sin(nπ/2)·cos(n·f·x)`. -/
def specTermSum (k : SpecKind) (f x : ℝ) (N : ℕ) : ℝ :=
  match k with
  | .square =>
      ∑ n in (Finset.Icc 1 N).filter (fun n => Odd n),
        (4 / ((n : ℝ) * Real.pi)) * Real.sin ((n : ℝ) * f * x)
  | .sawtooth =>
      ∑ n in Finset.Icc 1 N,
        (2 / ((n : ℝ) * Real.pi)) * (-1 : ℝ) ^ (n + 1) * Real.sin ((n : ℝ) * f * x)
  | .triangle =>
      ∑ n in (Finset.Icc 1 N).filter (fun n => Odd n),
        (8 / ((n : ℝ) ^ 2 * Real.pi ^ 2)) * (-1 : ℝ) ^ ((n - 1) / 2) *
          Real.sin ((n : ℝ) * f * x)
  | .pulse =>
      ∑ n in Finset.Icc 1 N,
        (2 / ((n : ℝ) * Real.pi)) * Real.sin ((n : ℝ) * Real.pi / 2) *
          Real.cos ((n : ℝ) * f * x)

example : rangeList 3 = [1, 2, 3] := by decide
example : oddRangeList 5 = [1, 3, 5] := by decide
example : rangeList (-2) = [] := by decide
example : oddRangeList 2 = oddRangeList 1 := by decide
example : pyCapitalize "square" = "Square" := by decide

/-! ### Dispatch lemmas for the four recognized branches. -/

lemma calculate_eq_square (s : Visualizer) (hk : s.current_function = "square") :
    calculate_fourier_series s =
      s.x.map (fun xi => s.amplitude * square_wave s.frequency xi s.num_terms) := by
  rw [calculate_fourier_series, hk, if_pos rfl]

lemma calculate_eq_sawtooth (s : Visualizer) (hk : s.current_function = "sawtooth") :
    calculate_fourier_series s =
      s.x.map (fun xi => s.amplitude * sawtooth_wave s.frequency xi s.num_terms) := by
  rw [calculate_fourier_series, hk, if_neg (by decide), if_pos rfl]

lemma calculate_eq_triangle (s : Visualizer) (hk : s.current_function = "triangle") :
    calculate_fourier_series s =
      s.x.map (fun xi => s.amplitude * triangle_wave s.frequency xi s.num_terms) := by
  rw [calculate_fourier_series, hk, if_neg (by decide), if_neg (by decide), if_pos rfl]

lemma calculate_eq_pulse (s : Visualizer) (hk : s.current_function = "pulse") :
    calculate_fourier_series s =
      s.x.map (fun xi => s.amplitude * pulse_wave s.frequency xi s.num_terms) := by
  rw [calculate_fourier_series, hk, if_neg (by decide), if_neg (by decide),
    if_neg (by decide), if_pos rfl]

/-! ### Bridging lemmas: list sums of `range`-style index lists versus
`Finset.Icc` sums as written in the spec's table. -/

lemma rangeList_eq_toNat (N : ℤ) : rangeList N = rangeList (N.toNat : ℤ) := by
  unfold rangeList
  rw [Int.toNat_natCast]

lemma oddRangeList_eq_toNat (N : ℤ) :
    oddRangeList N = oddRangeList (N.toNat : ℤ) := by
  simp [oddRangeList, rangeList_eq_toNat]

lemma rangeList_natCast_succ (m : ℕ) :
    rangeList ((m : ℤ) + 1) = rangeList (m : ℤ) ++ [m + 1] := by
  have h : ((m : ℤ) + 1).toNat = m + 1 := by omega
  have h2 : ((m : ℤ)).toNat = m := by omega
  simp only [rangeList, h, h2, List.range_succ, List.map_append, List.map_cons,
    List.map_nil]

lemma rangeList_map_sum (m : ℕ) (f : ℕ → ℝ) :
    ((rangeList (m : ℤ)).map f).sum = ∑ n in Finset.Icc 1 m, f n := by
  induction m with
  | zero => simp [rangeList]
  | succ k ih =>
      have hk : ((k : ℤ)) + 1 = ((k + 1 : ℕ) : ℤ) := by omega
      rw [← hk, rangeList_natCast_succ, List.map_append, List.sum_append,
        Finset.sum_Icc_succ_top (Nat.one_le_iff_ne_zero.mpr (Nat.succ_ne_zero k)), ih]
      simp

lemma filter_map_sum (l : List ℕ) (p : ℕ → Bool) (f : ℕ → ℝ) :
    ((l.filter p).map f).sum = (l.map (fun n => if p n then f n else 0)).sum := by
  induction l with
  | nil => rfl
  | cons a t ih =>
      by_cases h : p a
      · simp [List.filter_cons, h, ih]
      · simp [List.filter_cons, h, ih]

lemma oddRangeList_map_sum (m : ℕ) (f : ℕ → ℝ) :
    ((oddRangeList (m : ℤ)).map f).sum =
      ∑ n in (Finset.Icc 1 m).filter (fun n => Odd n), f n := by
  rw [oddRangeList, filter_map_sum, rangeList_map_sum, Finset.sum_filter]
  refine Finset.sum_congr rfl (fun n _ => ?_)
  by_cases h : Odd n
  · have hb : (n % 2 == 1) = true := by
      simpa [Nat.odd_iff] using h
    simp [h, hb]
  · have hb : ¬ ((n % 2 == 1) = true) := by
      simpa [Nat.odd_iff] using h
    simp [h, hb]

/-! ### Each wave evaluator agrees with the spec table's sum. -/

lemma square_wave_eq_spec (f x : ℝ) (N : ℤ) :
    square_wave f x N = specTermSum SpecKind.square f x N.toNat := by
  rw [square_wave, oddRangeList_eq_toNat, oddRangeList_map_sum]
  rfl

lemma sawtooth_wave_eq_spec (f x : ℝ) (N : ℤ) :
    sawtooth_wave f x N = specTermSum SpecKind.sawtooth f x N.toNat := by
  rw [sawtooth_wave, rangeList_eq_toNat, rangeList_map_sum]
  rfl

lemma triangle_wave_eq_spec (f x : ℝ) (N : ℤ) :
    triangle_wave f x N = specTermSum SpecKind.triangle f x N.toNat := by
  rw [triangle_wave, oddRangeList_eq_toNat, oddRangeList_map_sum]
  rfl

lemma pulse_wave_eq_spec (f x : ℝ) (N : ℤ) :
    pulse_wave f x N = specTermSum SpecKind.pulse f x N.toNat := by
  rw [pulse_wave, rangeList_eq_toNat, rangeList_map_sum]
  rfl

/-- A concrete state used to witness the engine-versus-table theorem. -/
def c1State : Visualizer :=
  { num_terms := 1
    frequency := 1
    amplitude := 1
    current_function := "square"
    x := [0]
    line_ydata := []
    title := "" }

/-- C1: for every grid point, term count `N ≥ 1`, frequency, and amplitude,
the engine output equals the amplitude times the per-kind partial sum of
the spec's table (Square and Triangle over odd `n` only, Sawtooth and
Pulse over all `n` from 1 to `N`). -/
theorem c1_engine_output_matches_spec_table (k : SpecKind) (s : Visualizer)
    (hk : s.current_function = kindName k) (hN : 1 ≤ s.num_terms) (i : ℕ) :
    (calculate_fourier_series s)[i]? =
      (s.x[i]?).map
        (fun xi => s.amplitude * specTermSum k s.frequency xi s.num_terms.toNat) := by
  cases k <;> simp only [kindName] at hk <;>
    simp [calculate_fourier_series, hk, square_wave_eq_spec,
      sawtooth_wave_eq_spec, triangle_wave_eq_spec, pulse_wave_eq_spec]

/-- Witness for C1 at the concrete state `c1State`. -/
theorem c1_engine_output_matches_spec_table_witness :
    c1State.current_function = kindName SpecKind.square ∧
    (1 : ℤ) ≤ c1State.num_terms ∧
    (calculate_fourier_series c1State)[0]? =
      (c1State.x[0]?).map
        (fun xi => c1State.amplitude *
          specTermSum SpecKind.square c1State.frequency xi c1State.num_terms.toNat) :=
  ⟨rfl, by decide,
    c1_engine_output_matches_spec_table SpecKind.square c1State rfl (by decide) 0⟩

/-- C4: the Zeeman shift calculator returns exactly
`9.274e-24 · gFactor · magneticQuantumNumber · fieldStrengthTesla`, in
particular `1.8548e-23` at `(2.0, 1.0, 1.0)` and `0` whenever the g-factor
is `0`. -/
theorem c4_zeeman_shift_formula :
    (∀ g m B : ℝ, calculate_zeeman_shift g m B = 9.274e-24 * g * m * B) ∧
    calculate_zeeman_shift 2.0 1.0 1.0 = 1.8548e-23 ∧
    (∀ m B : ℝ, calculate_zeeman_shift 0 m B = 0) := by
  refine ⟨fun g m B => rfl, ?_, fun m B => by simp [calculate_zeeman_shift]⟩
  unfold calculate_zeeman_shift BOHR_MAGNETON
  norm_num

lemma map_double (l : List ℝ) (g : ℝ → ℝ) (A : ℝ) :
    l.map (fun xi => 2 * A * g xi) =
      (l.map (fun xi => A * g xi)).map (fun y => 2 * y) := by
  rw [List.map_map]
  exact List.map_congr_left (fun a _ => by simp only [Function.comp_apply]; ring)

/-- C5: doubling the amplitude while holding every other parameter fixed
exactly doubles every sample of the engine output, for every kind
(including the all-zero fallback). -/
theorem c5_amplitude_linearity (s : Visualizer) :
    calculate_fourier_series { s with amplitude := 2 * s.amplitude } =
      (calculate_fourier_series s).map (fun y => 2 * y) := by
  simp only [calculate_fourier_series]
  split_ifs <;> simp [map_double, List.map_replicate]

lemma square_wave_two_eq_one (f x : ℝ) : square_wave f x 2 = square_wave f x 1 := rfl

lemma triangle_wave_two_eq_one (f x : ℝ) :
    triangle_wave f x 2 = triangle_wave f x 1 := rfl

/-- C6: for the Square and Triangle kinds the even-indexed terms are
skipped, so the output with two terms equals the output with one term, at
every grid point, frequency, and amplitude. -/
theorem c6_square_triangle_two_terms_eq_one (s : Visualizer)
    (h : s.current_function = "square" ∨ s.current_function = "triangle") :
    calculate_fourier_series { s with num_terms := 2 } =
      calculate_fourier_series { s with num_terms := 1 } := by
  rcases h with h | h <;>
    simp [calculate_fourier_series, h, square_wave_two_eq_one, triangle_wave_two_eq_one]

/-- Witness for C6 at the concrete square-wave state `c1State`. -/
theorem c6_square_triangle_witness :
    (c1State.current_function = "square" ∨ c1State.current_function = "triangle") ∧
    calculate_fourier_series { c1State with num_terms := 2 } =
      calculate_fourier_series { c1State with num_terms := 1 } :=
  ⟨Or.inl rfl, c6_square_triangle_two_terms_eq_one c1State (Or.inl rfl)⟩

lemma rangeList_nil (N : ℤ) (hN : N ≤ 0) : rangeList N = [] := by
  unfold rangeList
  rw [Int.toNat_of_nonpos hN]
  rfl

/-- C7: a term count of `0` or less makes every wave evaluator an empty
sum, so the engine returns the all-zero sequence of the grid's length for
every kind. -/
theorem c7_nonpositive_terms_all_zero (s : Visualizer) (hN : s.num_terms ≤ 0) :
    calculate_fourier_series s = List.replicate s.x.length 0 := by
  have h0 : rangeList s.num_terms = [] := rangeList_nil _ hN
  have hodd : oddRangeList s.num_terms = [] := by rw [oddRangeList, h0]; rfl
  simp only [calculate_fourier_series]
  split_ifs <;>
    simp [square_wave, sawtooth_wave, triangle_wave, pulse_wave, h0, hodd,
      List.map_const']

/-- A concrete state with a zero term count. -/
def c7State : Visualizer := { c1State with num_terms := 0 }

/-- Witness for C7 at the concrete state `c7State`. -/
theorem c7_nonpositive_terms_witness :
    c7State.num_terms ≤ 0 ∧
    calculate_fourier_series c7State = List.replicate c7State.x.length 0 :=
  ⟨by decide, c7_nonpositive_terms_all_zero c7State (by decide)⟩

/-- C8: an unrecognized waveform kind falls through every branch of the
dispatch and yields the all-zero sequence of the grid's length. -/
theorem c8_unknown_kind_all_zero (s : Visualizer)
    (h1 : s.current_function ≠ "square") (h2 : s.current_function ≠ "sawtooth")
    (h3 : s.current_function ≠ "triangle") (h4 : s.current_function ≠ "pulse") :
    calculate_fourier_series s = List.replicate s.x.length 0 := by
  simp [calculate_fourier_series, h1, h2, h3, h4]

/-- A concrete state whose function name is not one of the four kinds. -/
def c8State : Visualizer := { c1State with current_function := "noise" }

/-- Witness for C8 at the concrete state `c8State`. -/
theorem c8_unknown_kind_witness :
    c8State.current_function ≠ "square" ∧ c8State.current_function ≠ "sawtooth" ∧
    c8State.current_function ≠ "triangle" ∧ c8State.current_function ≠ "pulse" ∧
    calculate_fourier_series c8State = List.replicate c8State.x.length 0 :=
  ⟨by decide, by decide, by decide, by decide,
    c8_unknown_kind_all_zero c8State (by decide) (by decide) (by decide) (by decide)⟩

/-! ### The pulse coefficient `sin(nπ/2)` vanishes at every even `n`. -/

lemma sin_even_mul_pi_div_two (n : ℕ) (hn : n % 2 = 0) :
    Real.sin ((n : ℝ) * Real.pi / 2) = 0 := by
  obtain ⟨k, hk⟩ := Nat.even_iff.mpr hn
  subst hk
  have h : ((k + k : ℕ) : ℝ) * Real.pi / 2 = (k : ℝ) * Real.pi := by
    push_cast
    ring
  rw [h, Real.sin_nat_mul_pi]

lemma rangeList_succ_split (N : ℤ) (hN : 1 ≤ N) :
    rangeList N = rangeList (N - 1) ++ [N.toNat] := by
  have h1 : N.toNat = (N - 1).toNat + 1 := by omega
  unfold rangeList
  rw [h1, List.range_succ, List.map_append, List.map_cons, List.map_nil]

lemma pulse_wave_drop_even (f x : ℝ) (N : ℤ) (h1 : 1 ≤ N) (hE : N % 2 = 0) :
    pulse_wave f x N = pulse_wave f x (N - 1) := by
  unfold pulse_wave
  rw [rangeList_succ_split N h1, List.map_append, List.sum_append]
  have hn : N.toNat % 2 = 0 := by omega
  simp [sin_even_mul_pi_div_two N.toNat hn]

/-- C10: for the Pulse kind, every even-indexed coefficient `sin(nπ/2)` is
zero in exact real arithmetic, so for every even term count `N ≥ 2` the
output equals the output with `N - 1` terms, at every grid point,
frequency, and amplitude. -/
theorem c10_pulse_even_terms_vanish (s : Visualizer)
    (hk : s.current_function = "pulse") (h2 : 2 ≤ s.num_terms)
    (hE : Even s.num_terms) :
    calculate_fourier_series s =
      calculate_fourier_series { s with num_terms := s.num_terms - 1 } := by
  have hE2 : s.num_terms % 2 = 0 := Int.even_iff.mp hE
  simp only [calculate_fourier_series, hk]
  norm_num
  exact List.map_congr_left (fun xi _ => by
    rw [pulse_wave_drop_even s.frequency xi s.num_terms (by omega) hE2])

/-- A concrete pulse state with two terms. -/
def c10State : Visualizer :=
  { c1State with current_function := "pulse", num_terms := 2 }

/-- Witness for C10 at the concrete state `c10State`. -/
theorem c10_pulse_even_terms_witness :
    c10State.current_function = "pulse" ∧ (2 : ℤ) ≤ c10State.num_terms ∧
    Even c10State.num_terms ∧
    calculate_fourier_series c10State =
      calculate_fourier_series { c10State with num_terms := c10State.num_terms - 1 } :=
  ⟨rfl, by decide, by decide,
    c10_pulse_even_terms_vanish c10State rfl (by decide) (by decide)⟩

/-- A concrete pulse state at a grid point where `cos(2·f·x) = 1`, so any
nonzero `n = 2` coefficient would show up in the output. -/
def c2PulseState : Visualizer :=
  { num_terms := 2
    frequency := 1
    amplitude := 1
    current_function := "pulse"
    x := [0]
    line_ydata := []
    title := "" }

/-- C2 counterexample: for the Pulse kind the `n = 2` coefficient is
`sin(π) = 0` in exact real arithmetic, so the output with two terms equals
the output with one term even at a grid point where `cos(2·f·x) ≠ 0` —
contradicting the claim that they must differ. -/
theorem c2_pulse_two_terms_counterexample :
    calculate_fourier_series c2PulseState =
      calculate_fourier_series { c2PulseState with num_terms := 1 } := by
  have h := pulse_wave_drop_even 1 0 2 (by norm_num) (by decide)
  norm_num at h
  rw [calculate_eq_pulse c2PulseState rfl, calculate_eq_pulse _ rfl]
  simp [c2PulseState, h]

lemma sawtooth_wave_two (f x : ℝ) :
    sawtooth_wave f x 2 = sawtooth_wave f x 1 - Real.sin (2 * f * x) / Real.pi := by
  have h1 : rangeList 2 = [1, 2] := by decide
  have h2 : rangeList 1 = [1] := by decide
  simp [sawtooth_wave, h1, h2]
  ring

/-- C2 (amended): for the Sawtooth kind the output with two terms differs
from the output with one term at every grid point where `sin(2·f·x) ≠ 0`
and the amplitude is nonzero; for the Pulse kind the `n = 2` coefficient
`sin(π)` is zero in exact real arithmetic, so the outputs with two terms
and with one term are equal. -/
theorem c2_sawtooth_differs_pulse_equal :
    (∀ (s : Visualizer) (i : ℕ) (xi : ℝ), s.x[i]? = some xi →
      s.current_function = "sawtooth" → s.num_terms = 2 → s.amplitude ≠ 0 →
      Real.sin (2 * s.frequency * xi) ≠ 0 →
      (calculate_fourier_series s)[i]? ≠
        (calculate_fourier_series { s with num_terms := 1 })[i]?) ∧
    (∀ s : Visualizer, s.current_function = "pulse" →
      calculate_fourier_series { s with num_terms := 2 } =
        calculate_fourier_series { s with num_terms := 1 }) := by
  constructor
  · intro s i xi hxi hk hN hA hsin
    rw [calculate_eq_sawtooth s hk, calculate_eq_sawtooth { s with num_terms := 1 } hk]
    simp only [List.getElem?_map, hxi, Option.map_some', hN, Ne, Option.some.injEq]
    rw [sawtooth_wave_two]
    intro heq
    have hq : s.amplitude * (Real.sin (2 * s.frequency * xi) / Real.pi) = 0 := by
      linear_combination -heq
    rcases mul_eq_zero.mp hq with h | h
    · exact hA h
    · rcases div_eq_zero_iff.mp h with h | h
      · exact hsin h
      · exact Real.pi_ne_zero h
  · intro s hk
    rw [calculate_eq_pulse { s with num_terms := 2 } hk,
      calculate_eq_pulse { s with num_terms := 1 } hk]
    exact List.map_congr_left (fun xi _ => by
      simp only [pulse_wave_drop_even s.frequency xi 2 (by norm_num) (by decide)]
      norm_num)

/-- A concrete sawtooth state whose single grid point makes the `n = 2`
term nonzero. -/
def c2SawState : Visualizer :=
  { num_terms := 2
    frequency := 1
    amplitude := 1
    current_function := "sawtooth"
    x := [Real.pi / 4]
    line_ydata := []
    title := "" }

/-- Witness for the amended C2 at the concrete state `c2SawState`. -/
theorem c2_sawtooth_differs_witness :
    c2SawState.x[0]? = some (Real.pi / 4) ∧
    Real.sin (2 * c2SawState.frequency * (Real.pi / 4)) ≠ 0 ∧
    (calculate_fourier_series c2SawState)[0]? ≠
      (calculate_fourier_series { c2SawState with num_terms := 1 })[0]? := by
  have hsin : Real.sin (2 * c2SawState.frequency * (Real.pi / 4)) ≠ 0 := by
    have h : (2 : ℝ) * c2SawState.frequency * (Real.pi / 4) = Real.pi / 2 := by
      show (2 : ℝ) * 1 * (Real.pi / 4) = Real.pi / 2
      ring
    rw [h, Real.sin_pi_div_two]
    exact one_ne_zero
  exact ⟨rfl, hsin,
    c2_sawtooth_differs_pulse_equal.1 c2SawState 0 (Real.pi / 4) rfl rfl rfl
      one_ne_zero hsin⟩

lemma pyCapitalize_kindName (k : SpecKind) :
    pyCapitalize (kindName k) = specKindTitleName k := by
  cases k <;> decide

/-- C3 counterexample: right after construction (Square kind, 5 terms) the
stored title is `Fourier Series: Square Wave (5 terms)`, which is not
exactly `Square Wave (5 terms)`: the claimed form misses the
`Fourier Series: ` prefix. -/
theorem c3_title_prefix_counterexample :
    initVisualizer.title = "Fourier Series: Square Wave (5 terms)" ∧
    initVisualizer.title ≠ "Square Wave (5 terms)" := by
  constructor
  · decide
  · decide

/-- C3 (amended): for every recognized kind and every term count, the
derived title is exactly `Fourier Series: <Kind> Wave (<termCount> terms)`
with the capitalized kind name. -/
theorem c3_title_format (s : Visualizer) (k : SpecKind)
    (hk : s.current_function = kindName k) :
    (update_plot s).title =
      "Fourier Series: " ++ specKindTitleName k ++ " Wave (" ++
        toString s.num_terms ++ " terms)" := by
  show "Fourier Series: " ++ pyCapitalize s.current_function ++
      " Wave (" ++ toString s.num_terms ++ " terms)" = _
  rw [hk, pyCapitalize_kindName]

/-- Witness for the amended C3 at the concrete state `c1State`. -/
theorem c3_title_format_witness :
    c1State.current_function = kindName SpecKind.square ∧
    (update_plot c1State).title = "Fourier Series: Square Wave (1 terms)" := by
  refine ⟨rfl, ?_⟩
  rw [c3_title_format c1State SpecKind.square rfl]
  decide

lemma update_plot_fresh (t : Visualizer) :
    (update_plot t).line_ydata = calculate_fourier_series (update_plot t) := by
  have h : calculate_fourier_series (update_plot t) = calculate_fourier_series t := rfl
  rw [h]
  rfl

/-- C9: the sample grid is the fixed 1000-point even subdivision of
`[-2π, 2π]` (point `i` is `-2π + i·(4π/999)`, so the ends are `-2π` and
`2π`), no setter ever changes it, and after construction and after every
setter the stored line data equals a fresh engine computation at the full
current parameter set. -/
theorem c9_grid_fixed_and_output_fresh :
    initVisualizer.x.length = 1000 ∧
    initVisualizer.x = (List.range 1000).map
      (fun (i : ℕ) => -(2 * Real.pi) + (i : ℝ) * (4 * Real.pi / 999)) ∧
    initVisualizer.x[0]? = some (-(2 * Real.pi)) ∧
    initVisualizer.x[999]? = some (2 * Real.pi) ∧
    (∀ (s : Visualizer) (v : ℤ), (update_terms s v).x = s.x) ∧
    (∀ (s : Visualizer) (v : ℝ), (update_frequency s v).x = s.x) ∧
    (∀ (s : Visualizer) (v : ℝ), (update_amplitude s v).x = s.x) ∧
    (∀ (s : Visualizer) (l : String), (update_function s l).x = s.x) ∧
    initVisualizer.line_ydata = calculate_fourier_series initVisualizer ∧
    (∀ (s : Visualizer) (v : ℤ),
      (update_terms s v).line_ydata = calculate_fourier_series (update_terms s v)) ∧
    (∀ (s : Visualizer) (v : ℝ),
      (update_frequency s v).line_ydata =
        calculate_fourier_series (update_frequency s v)) ∧
    (∀ (s : Visualizer) (v : ℝ),
      (update_amplitude s v).line_ydata =
        calculate_fourier_series (update_amplitude s v)) ∧
    (∀ (s : Visualizer) (l : String),
      (update_function s l).line_ydata =
        calculate_fourier_series (update_function s l)) := by
  have hx : initVisualizer.x = linspace (-(2 * Real.pi)) (2 * Real.pi) 1000 := by
    simp only [initVisualizer, update_plot]
  have hgrid : initVisualizer.x = (List.range 1000).map
      (fun (i : ℕ) => -(2 * Real.pi) + (i : ℝ) * (4 * Real.pi / 999)) := by
    rw [hx]
    unfold linspace
    refine List.map_congr_left (fun i hi => ?_)
    have h999 : ((1000 - 1 : ℕ) : ℝ) = 999 := by norm_num
    rw [h999]
    ring
  refine ⟨?_, hgrid, ?_, ?_, fun s v => rfl, fun s v => rfl, fun s v => rfl,
    fun s l => rfl, update_plot_fresh _, fun s v => update_plot_fresh _,
    fun s v => update_plot_fresh _, fun s v => update_plot_fresh _,
    fun s l => update_plot_fresh _⟩
  · rw [hx]
    simp [linspace]
  · rw [hgrid, List.getElem?_map, List.getElem?_range (by norm_num : 0 < 1000)]
    norm_num
  · rw [hgrid, List.getElem?_map, List.getElem?_range (by norm_num : 999 < 1000)]
    norm_num
    ring
